import Mathlib

/-!
Verification of the ledger / analytics / export core of the `catatan-keuangan`
personal finance tracker.

The embedding models:
* `src/lib/database.ts` — the Dexie-backed ledger store and the balance
  maintenance protocols (`seedCategories`, `updateAccountBalance`,
  `createTransaction`, `deleteTransaction`, `updateTransaction`);
* the analytics module (`getMonthlyCashflow`, `getCashflowForecast`,
  `calculateVariance`, `detectAnomalies`);
* the export module (`exportToCSV`).

Modelling conventions:
* JavaScript numbers are modelled as exact rationals (`ℚ`).
* Dates are modelled as points on a continuous month timeline (`ℚ`): the
  calendar month containing date `d` is `⌊d⌋`, so date-fns
  `startOfMonth (subMonths now i)` becomes `⌊now⌋ - i`, the inclusive window
  `monthStart ≤ d ≤ endOfMonth` becomes `⌊d⌋ = ⌊now⌋ - i`, and
  `subMonths now k` becomes `now - k`.
* Dexie tables are lists of records carrying their primary key `id`;
  auto-increment is modelled by a `next…Id` counter in the store.
  `Table.update` / `Table.delete` on an absent key are no-ops, as in Dexie.
-/

namespace CatatanKeuangan

/-- Transaction (and category) type union from `database.ts`:
`'income' | 'expense' | 'transfer'`. -/
inductive TxnType where
  | income
  | expense
  | transfer
deriving DecidableEq, Repr

/-- The `Transaction` record of `database.ts`.  `createdAt` is omitted (it is
never read by any of the modelled operations); `date` lives on the month
timeline described in the header.  Dexie assigns `id` on insertion, so the
`id` field of a record passed to `createTransaction` is ignored and replaced
by the fresh auto-increment key. -/
structure Txn where
  id : Nat
  userId : Nat
  accountId : Nat
  categoryId : Nat
  type : TxnType
  amount : ℚ
  date : ℚ
  note : Option String
  destinationAccountId : Option Nat
deriving DecidableEq, Repr

/-- A `Partial<Omit<Transaction, 'id' | 'createdAt'>>` update object: each
field is present (`some`) or absent (`none`).  For the two optional source
fields, `some none` models explicitly clearing the field. -/
structure TxnUpdates where
  userId : Option Nat
  accountId : Option Nat
  categoryId : Option Nat
  type : Option TxnType
  amount : Option ℚ
  date : Option ℚ
  note : Option (Option String)
  destinationAccountId : Option (Option Nat)
deriving DecidableEq, Repr

/-- An update object that only sets `amount` (as the Transactions page does
when editing just the amount). -/
def amountOnly (b : ℚ) : TxnUpdates :=
  ⟨none, none, none, none, some b, none, none, none⟩

/-- JS object spread `{ ...t, ...u }`: fields present in `u` overwrite those
of `t`. -/
def mergeTxn (t : Txn) (u : TxnUpdates) : Txn :=
  { id := t.id
    userId := u.userId.getD t.userId
    accountId := u.accountId.getD t.accountId
    categoryId := u.categoryId.getD t.categoryId
    type := u.type.getD t.type
    amount := u.amount.getD t.amount
    date := u.date.getD t.date
    note := u.note.getD t.note
    destinationAccountId := u.destinationAccountId.getD t.destinationAccountId }

/-- The `Account` record of `database.ts` (the `type` and `createdAt` fields
are never read by the modelled operations and are omitted). -/
structure Account where
  id : Nat
  userId : Nat
  name : String
  balance : ℚ
deriving DecidableEq, Repr

/-- The `Category` record of `database.ts`. -/
structure Category where
  id : Nat
  userId : Nat
  name : String
  type : TxnType
  icon : Option String
deriving DecidableEq, Repr

/-- The persisted state of the `FinanceTracker` Dexie database (the `users`
table is never touched by the modelled operations).  `nextTxnId` and
`nextCategoryId` model the `++id` auto-increment counters. -/
structure Store where
  accounts : List Account
  categories : List Category
  txns : List Txn
  nextTxnId : Nat
  nextCategoryId : Nat
deriving DecidableEq, Repr

/-- The raw contents of the `defaultCategories` literal in `seedCategories`:
name, type and icon of each of the 23 default categories, in source order
(6 income, 11 expense, 6 transfer). -/
def defaultCategorySeeds : List (String × TxnType × String) :=
  [("Salary", .income, "💰"),
   ("Bonus", .income, "🎁"),
   ("Refund", .income, "↩️"),
   ("Investment Returns", .income, "📈"),
   ("Freelance", .income, "💼"),
   ("Other Income", .income, "➕"),
   ("Food & Dining", .expense, "🍔"),
   ("Transport", .expense, "🚗"),
   ("Utilities", .expense, "💡"),
   ("Shopping", .expense, "🛍️"),
   ("Entertainment", .expense, "🎬"),
   ("Healthcare", .expense, "🏥"),
   ("Education", .expense, "📚"),
   ("Rent", .expense, "🏠"),
   ("Insurance", .expense, "🛡️"),
   ("Subscriptions", .expense, "📱"),
   ("Other Expense", .expense, "➖"),
   ("Bank to Cash", .transfer, "🏦"),
   ("Cash to Bank", .transfer, "💵"),
   ("To E-Wallet", .transfer, "📲"),
   ("From E-Wallet", .transfer, "📱"),
   ("Investment Transfer", .transfer, "📊"),
   ("Internal Transfer", .transfer, "🔄")]

/-- The 23 default `Category` records `bulkAdd`ed by `seedCategories` for a
user, receiving consecutive auto-increment ids starting at `n`. -/
def seededCategoriesFor (userId n : Nat) : List Category :=
  defaultCategorySeeds.enum.map (fun p =>
    { id := n + p.1
      userId := userId
      name := p.2.1
      type := p.2.2.1
      icon := some p.2.2.2 })

/-- `seedCategories(userId)` from `database.ts`: count the user's existing
categories; if any exist, return; otherwise `bulkAdd` the 23 defaults (which
assigns them consecutive fresh ids). -/
def seedCategories (userId : Nat) (s : Store) : Store :=
  if 0 < (s.categories.filter (fun c => c.userId == userId)).length then s
  else
    { s with
      categories := s.categories ++ seededCategoriesFor userId s.nextCategoryId
      nextCategoryId := s.nextCategoryId + defaultCategorySeeds.length }

/-- `updateAccountBalance(accountId, amount)` from `database.ts`: fetch the
account by primary key and, if it exists, add `amount` to its balance (a
silent no-op when the account is absent).  Primary keys are unique in Dexie;
the `map` form touches exactly the fetched record. -/
def updateAccountBalance (accountId : Nat) (amount : ℚ)
    (accounts : List Account) : List Account :=
  accounts.map (fun a =>
    if a.id == accountId then { a with balance := a.balance + amount } else a)

/-- The balance-effect branch shared (with opposite signs) by
`createTransaction`, `deleteTransaction` and `updateTransaction`:
income adds `sign * amount` to the source account, expense subtracts it, and
a transfer moves `sign * amount` from the source to the destination account
only when a destination is present (`transaction.destinationAccountId`
truthy); a transfer with no destination touches no balance at all. -/
def applyBalanceEffect (t : Txn) (sign : ℚ) (accounts : List Account) :
    List Account :=
  match t.type, t.destinationAccountId with
  | .income, _ => updateAccountBalance t.accountId (sign * t.amount) accounts
  | .expense, _ =>
      updateAccountBalance t.accountId (-(sign * t.amount)) accounts
  | .transfer, some dst =>
      updateAccountBalance dst (sign * t.amount)
        (updateAccountBalance t.accountId (-(sign * t.amount)) accounts)
  | .transfer, none => accounts

/-- `createTransaction(transaction)` from `database.ts`: add the record
(receiving the fresh auto-increment id) and apply its forward balance
effect, as one atomic Dexie transaction. -/
def createTransaction (t : Txn) (s : Store) : Store :=
  { s with
    txns := s.txns ++ [{ t with id := s.nextTxnId }]
    accounts := applyBalanceEffect t 1 s.accounts
    nextTxnId := s.nextTxnId + 1 }

/-- `deleteTransaction(transactionId)` from `database.ts`: look the record
up (silent no-op when absent), reverse its balance effect and remove it. -/
def deleteTransaction (transactionId : Nat) (s : Store) : Store :=
  match s.txns.find? (fun t => t.id == transactionId) with
  | none => s
  | some t =>
      { s with
        accounts := applyBalanceEffect t (-1) s.accounts
        txns := s.txns.filter (fun x => x.id != transactionId) }

/-- `updateTransaction(transactionId, updates)` from `database.ts`: look the
original up (silent no-op when absent), reverse the original's balance
effect, merge `updates` into the stored record, and apply the balance effect
of the merged (`{ ...oldTransaction, ...updates }`) record. -/
def updateTransaction (transactionId : Nat) (u : TxnUpdates) (s : Store) :
    Store :=
  match s.txns.find? (fun t => t.id == transactionId) with
  | none => s
  | some oldTxn =>
      { s with
        accounts :=
          applyBalanceEffect (mergeTxn oldTxn u) 1
            (applyBalanceEffect oldTxn (-1) s.accounts)
        txns := s.txns.map (fun t =>
          if t.id == transactionId then mergeTxn t u else t) }

/-- One transaction-mutating call of the Balance Maintainer API. -/
inductive LedgerOp where
  | create (t : Txn)
  | update (transactionId : Nat) (u : TxnUpdates)
  | delete (transactionId : Nat)
deriving DecidableEq, Repr

/-- Run one ledger operation. -/
def applyOp (s : Store) : LedgerOp → Store
  | .create t => createTransaction t s
  | .update transactionId u => updateTransaction transactionId u s
  | .delete transactionId => deleteTransaction transactionId s

/-- Run a sequence of ledger operations, first to last. -/
def applyOps (s : Store) (ops : List LedgerOp) : Store :=
  ops.foldl applyOp s

/-- The §4.2 sign convention as a per-account signed effect: income
contributes `+amount` to the source account, expense `-amount`, a transfer
with a destination `-amount` to the source and `+amount` to the destination,
and a transfer without a destination contributes nothing (the code skips
both legs). -/
def signedEffect (t : Txn) (accountId : Nat) : ℚ :=
  match t.type with
  | .income => if t.accountId = accountId then t.amount else 0
  | .expense => if t.accountId = accountId then -t.amount else 0
  | .transfer =>
      match t.destinationAccountId with
      | some dst =>
          (if t.accountId = accountId then -t.amount else 0) +
            (if dst = accountId then t.amount else 0)
      | none => 0

/-- Sign of a transaction type on its source account (§4.2): `+1` for
income, `-1` for expense and for the source leg of a transfer. -/
def typeSign : TxnType → ℚ
  | .income => 1
  | .expense => -1
  | .transfer => -1

/-- Ledger-consistency invariant (§4.2): every account's balance equals the
sum of the signed effects of the stored transactions on it. -/
def balanced (s : Store) : Prop :=
  ∀ a ∈ s.accounts, a.balance = (s.txns.map (fun t => signedEffect t a.id)).sum

instance : DecidablePred balanced := fun s =>
  List.decidableBAll _ s.accounts

/-- Auto-increment well-formedness: stored transaction ids are pairwise
distinct and below the `++id` counter (every Dexie table satisfies this). -/
def txnIdsOk (s : Store) : Prop :=
  (s.txns.map (fun t => t.id)).Nodup ∧ ∀ t ∈ s.txns, t.id < s.nextTxnId

instance : DecidablePred txnIdsOk := fun s => by
  unfold txnIdsOk; infer_instance

/-- Balance of the account with the given id, if present (first match, as
Dexie primary-key `get`). -/
def getBalance (s : Store) (accountId : Nat) : Option ℚ :=
  (s.accounts.find? (fun a => a.id == accountId)).map (fun a => a.balance)

/-! ## Analytics (`analytics.ts`) -/

/-- One point of the monthly cashflow series.  The source labels the month
with `format(monthStart, 'MMM yyyy')`; on the month timeline the label is
the month index itself (no modelled operation reads it). -/
structure MonthlyCashflow where
  month : ℤ
  income : ℚ
  expense : ℚ
  net : ℚ
deriving DecidableEq, Repr

/-- `getMonthlyCashflow(userId, months)`: for `i = months-1 … 0`, sum the
user's non-transfer incomes and expenses dated inside the calendar month
`startOfMonth (subMonths now i) … endOfMonth (subMonths now i)` — on the
month timeline, the month with index `⌊now⌋ - i`. -/
def getMonthlyCashflow (now : ℚ) (userId : Nat) (txns : List Txn)
    (months : Nat) : List MonthlyCashflow :=
  (List.range months).reverse.map (fun i =>
    let monthIdx : ℤ := ⌊now⌋ - i
    let monthTxns := txns.filter (fun t =>
      t.userId == userId && ⌊t.date⌋ == monthIdx && t.type != .transfer)
    let income := ((monthTxns.filter (fun t => t.type == .income)).map
      (fun t => t.amount)).sum
    let expense := ((monthTxns.filter (fun t => t.type == .expense)).map
      (fun t => t.amount)).sum
    { month := monthIdx, income := income, expense := expense
      net := income - expense })

/-- `calculateVariance(values)`: population variance, `0` on an empty
list. -/
def calculateVariance (values : List ℚ) : ℚ :=
  if values.length = 0 then 0
  else
    let mean := values.sum / values.length
    (values.map (fun v => (v - mean) ^ 2)).sum / values.length

/-- `Math.round`: round half toward positive infinity. -/
def jsRound (q : ℚ) : ℤ := ⌊q + 1 / 2⌋

/-- The `'low' | 'medium' | 'high'` confidence union. -/
inductive Confidence where
  | low
  | medium
  | high
deriving DecidableEq, Repr

/-- The forecast record returned by `getCashflowForecast` (predictions are
`Math.round`ed, hence integers). -/
structure CashflowForecast where
  predictedIncome : ℤ
  predictedExpense : ℤ
  predictedNet : ℤ
  confidence : Confidence
deriving DecidableEq, Repr

/-- The income series of the 3-month moving-average window
(`recentMonths.map(m => m.income)` for `recentMonths =
monthlyCashflow.slice(-3)` over the 6-month cashflow). -/
def forecastWindowIncomes (now : ℚ) (userId : Nat) (txns : List Txn) :
    List ℚ :=
  let monthlyCashflow := getMonthlyCashflow now userId txns 6
  ((monthlyCashflow.drop (monthlyCashflow.length - 3)).map
    (fun m => m.income))

/-- `getCashflowForecast(userId)`: zero forecast with low confidence when
the 6-month cashflow has fewer than 3 entries, otherwise the 3-month moving
average, with confidence derived from the income series' coefficient of
variation `Math.sqrt(incomeVariance) / avgIncome` (taken as `1` unless
`avgIncome > 0`).  The two float comparisons `cv < 0.2` and `cv > 0.5` are
embedded by their exact squared equivalents over the nonnegative reals:
for `avgIncome > 0`, `√v / μ < c ↔ v < (c * μ)^2` and
`√v / μ > c ↔ v > (c * μ)^2`; for `avgIncome ≤ 0`, `cv = 1` fails `< 0.2`
and passes `> 0.5`, giving `low`. -/
def getCashflowForecast (now : ℚ) (userId : Nat) (txns : List Txn) :
    CashflowForecast :=
  let monthlyCashflow := getMonthlyCashflow now userId txns 6
  if monthlyCashflow.length < 3 then
    { predictedIncome := 0, predictedExpense := 0, predictedNet := 0
      confidence := .low }
  else
    let recentMonths := monthlyCashflow.drop (monthlyCashflow.length - 3)
    let predictedIncome := ((recentMonths.map (fun m => m.income)).sum) / 3
    let predictedExpense := ((recentMonths.map (fun m => m.expense)).sum) / 3
    let incomeVariance :=
      calculateVariance (recentMonths.map (fun m => m.income))
    let avgIncome := predictedIncome
    let confidence : Confidence :=
      if 0 < avgIncome then
        if incomeVariance < (1 / 5 * avgIncome) ^ 2 then .high
        else if (1 / 2 * avgIncome) ^ 2 < incomeVariance then .low
        else .medium
      else .low
    { predictedIncome := jsRound predictedIncome
      predictedExpense := jsRound predictedExpense
      predictedNet := jsRound (predictedIncome - predictedExpense)
      confidence := confidence }

/-- The `avgIncome` (= `predictedIncome`) of the forecast: arithmetic mean
of the 3-month window incomes. -/
def forecastAvgIncome (now : ℚ) (userId : Nat) (txns : List Txn) : ℚ :=
  (forecastWindowIncomes now userId txns).sum / 3

/-- A flagged spending anomaly. -/
structure SpendingAnomaly where
  transactionId : Nat
  categoryName : String
  amount : ℚ
  average : ℚ
  ratio : ℚ
  date : ℚ
deriving DecidableEq, Repr

/-- Category name lookup with the `'Unknown'` fallback used by the
analytics module. -/
def categoryNameOf (cats : List Category) (categoryId : Nat) : String :=
  match cats.find? (fun c => c.id == categoryId) with
  | some c => c.name
  | none => "Unknown"

/-- The historical window of `detectAnomalies`: the user's expense
transactions dated in `[subMonths now 3, subMonths now 1)`. -/
def historicalExpenses (now : ℚ) (userId : Nat) (txns : List Txn) :
    List Txn :=
  txns.filter (fun t => decide (t.userId = userId ∧ t.type = .expense ∧
    now - 3 ≤ t.date ∧ t.date < now - 1))

/-- Number of historical-window expense transactions in a category (the
`count` field of the `categoryAverages` map entry; `0` when the map has no
entry for the category). -/
def histCount (now : ℚ) (userId : Nat) (txns : List Txn)
    (categoryId : Nat) : Nat :=
  ((historicalExpenses now userId txns).filter
    (fun t => t.categoryId == categoryId)).length

/-- Sum of historical-window expense amounts in a category (the `total`
field of the `categoryAverages` map entry). -/
def histTotal (now : ℚ) (userId : Nat) (txns : List Txn)
    (categoryId : Nat) : ℚ :=
  (((historicalExpenses now userId txns).filter
    (fun t => t.categoryId == categoryId)).map (fun t => t.amount)).sum

/-- The per-category historical average `avg.total / avg.count`. -/
def histAverage (now : ℚ) (userId : Nat) (txns : List Txn)
    (categoryId : Nat) : ℚ :=
  histTotal now userId txns categoryId / histCount now userId txns categoryId

/-- The recent window of `detectAnomalies`: the user's expense transactions
dated from `subMonths now 1` on. -/
def recentExpenses (now : ℚ) (userId : Nat) (txns : List Txn) : List Txn :=
  txns.filter (fun t => decide (t.userId = userId ∧ t.type = .expense ∧
    now - 1 ≤ t.date))

/-- Descending-ratio order used for the final
`anomalies.sort((a, b) => b.ratio - a.ratio)`. -/
def ratioGE (a b : SpendingAnomaly) : Prop := b.ratio ≤ a.ratio

instance : DecidableRel ratioGE := fun a b => by
  unfold ratioGE; infer_instance

instance : IsTotal SpendingAnomaly ratioGE :=
  ⟨fun a b => le_total b.ratio a.ratio⟩

instance : IsTrans SpendingAnomaly ratioGE :=
  ⟨fun _ _ _ h1 h2 => le_trans h2 h1⟩

/-- `detectAnomalies(userId)`: build the per-category averages over the
historical window, scan the recent expenses, flag those whose category has
at least 2 historical samples and whose `ratio = amount / average` is at
least 2, and sort descending by ratio.  The `Map` accumulated by `forEach`
is embedded by the per-key aggregates `histCount` / `histTotal`; the
`avg && avg.count >= 2` guard is `histCount ≥ 2` (an absent map entry has
count `0`). -/
def detectAnomalies (now : ℚ) (userId : Nat) (txns : List Txn)
    (cats : List Category) : List SpendingAnomaly :=
  let anomalies := (recentExpenses now userId txns).filterMap (fun t =>
    if 2 ≤ histCount now userId txns t.categoryId then
      let average := histAverage now userId txns t.categoryId
      let ratio := t.amount / average
      if 2 ≤ ratio then
        some { transactionId := t.id
               categoryName := categoryNameOf cats t.categoryId
               amount := t.amount
               average := average
               ratio := ratio
               date := t.date }
      else none
    else none)
  anomalies.insertionSort ratioGE

/-! ## CSV export (`exportToCSV`) -/

/-- JavaScript `Array.prototype.join(sep)`. -/
def joinSep (sep : String) : List String → String
  | [] => ""
  | [x] => x
  | x :: y :: ys => x ++ sep ++ joinSep sep (y :: ys)

/-- Account name lookup with the `''` fallback of `exportToCSV`
(`accountMap.get(t.accountId) || ''`). -/
def accountNameOrEmpty (accounts : List Account) (accountId : Nat) :
    String :=
  match accounts.find? (fun a => a.id == accountId) with
  | some a => a.name
  | none => ""

/-- Category name lookup with the `''` fallback of `exportToCSV`. -/
def categoryNameOrEmpty (cats : List Category) (categoryId : Nat) :
    String :=
  match cats.find? (fun c => c.id == categoryId) with
  | some c => c.name
  | none => ""

/-- The CSV type column: the transaction type literal. -/
def typeToString : TxnType → String
  | .income => "income"
  | .expense => "expense"
  | .transfer => "transfer"

/-- The 6 rendered cells of one CSV row, in source order: formatted date,
type, category name, account name, amount, note (empty when absent).
`fmt` stands for the date-fns `format(·, 'yyyy-MM-dd')` formatter, an
external library function taken as a parameter of the embedding. -/
def csvCells (fmt : ℚ → String) (accounts : List Account)
    (cats : List Category) (t : Txn) : List String :=
  [fmt t.date, typeToString t.type, categoryNameOrEmpty cats t.categoryId,
   accountNameOrEmpty accounts t.accountId, toString t.amount,
   t.note.getD ""]

/-- The CSV header cells. -/
def csvHeaders : List String :=
  ["Date", "Type", "Category", "Account", "Amount", "Note"]

/-- `exportToCSV(userId)`: the user's transactions, accounts and
categories are fetched; the content is the comma-joined (unquoted) header
row followed by one row per transaction whose cells are each wrapped in
double quotes and comma-joined, all rows joined by newlines. -/
def exportToCSV (fmt : ℚ → String) (userId : Nat) (s : Store) : String :=
  let transactions := s.txns.filter (fun t => t.userId == userId)
  let accounts := s.accounts.filter (fun a => a.userId == userId)
  let cats := s.categories.filter (fun c => c.userId == userId)
  let rows := transactions.map (fun t => csvCells fmt accounts cats t)
  joinSep "\n"
    (joinSep "," csvHeaders ::
      rows.map (fun row =>
        joinSep "," (row.map (fun cell => "\"" ++ cell ++ "\""))))

/-- Split a character list at every occurrence of the separator character
(the splitter used to state the line / field structure of the CSV text). -/
def splitCh (c : Char) : List Char → List (List Char)
  | [] => [[]]
  | x :: xs =>
      if x = c then [] :: splitCh c xs
      else
        match splitCh c xs with
        | [] => [[x]]
        | y :: ys => (x :: y) :: ys

/-- The newline-separated lines of a string. -/
def textLines (s : String) : List String :=
  (splitCh '\n' s.data).map (fun l => String.mk l)

/-- The comma-separated fields of a line. -/
def lineFields (s : String) : List String :=
  (splitCh ',' s.data).map (fun l => String.mk l)

/-- A field is double-quoted when it starts and ends with a `"`. -/
def doubleQuoted (s : String) : Prop :=
  ∃ mid : List Char, s.data = '"' :: (mid ++ ['"'])

instance : DecidablePred doubleQuoted := fun s =>
  decidable_of_iff
    (2 ≤ s.data.length ∧ s.data.head? = some '"' ∧
      s.data.getLast? = some '"')
    (by
      constructor
      · rintro ⟨hlen, hhead, hlast⟩
        match h : s.data with
        | [] => simp [h] at hhead
        | [a] => simp [h] at hlen
        | a :: b :: rest =>
            rw [h] at hhead hlast
            simp only [List.head?_cons] at hhead
            obtain rfl : a = '"' := Option.some_inj.mp hhead
            have hne : b :: rest ≠ [] := by simp
            have hsplit := (b :: rest).dropLast_append_getLast hne
            have hgl : (b :: rest).getLast hne = '"' := by
              rw [List.getLast?_cons_cons, List.getLast?_eq_getLast _ hne]
                at hlast
              exact Option.some_inj.mp hlast
            refine ⟨(b :: rest).dropLast, ?_⟩
            rw [h, ← hgl, hsplit]
      · rintro ⟨mid, hmid⟩
        refine ⟨by simp [hmid], by simp [hmid], ?_⟩
        rw [hmid, ← List.cons_append, List.getLast?_concat])

/-! ## Ledger lemmas -/

theorem signedEffect_withId (t : Txn) (n : Nat) (accountId : Nat) :
    signedEffect { t with id := n } accountId = signedEffect t accountId := by
  cases t; rfl

theorem signedEffect_mergeTxn_amountOnly (t : Txn) (b : ℚ) :
    mergeTxn t (amountOnly b) = { t with amount := b } := by
  cases t; rfl

/-- The balance-effect branches act on every account as the addition of the
signed effect (scaled by the sign). -/
theorem applyBalanceEffect_apply (t : Txn) (sign : ℚ) (l : List Account) :
    applyBalanceEffect t sign l =
      l.map (fun a =>
        { a with balance := a.balance + sign * signedEffect t a.id }) := by
  rcases t with ⟨tid, tuid, taid, tcid, ty, amt, tdate, tnote, tdest⟩
  cases ty with
  | income =>
      show updateAccountBalance taid (sign * amt) l = _
      unfold updateAccountBalance
      rw [List.map_eq_map_iff]
      intro a _
      simp only [signedEffect, beq_iff_eq]
      rcases eq_or_ne taid a.id with h1 | h1
      · subst h1; simp
      · have h1' : ¬(a.id = taid) := fun hh => h1 hh.symm
        simp [h1, h1']
  | expense =>
      show updateAccountBalance taid (-(sign * amt)) l = _
      unfold updateAccountBalance
      rw [List.map_eq_map_iff]
      intro a _
      simp only [signedEffect, beq_iff_eq]
      rcases eq_or_ne taid a.id with h1 | h1
      · subst h1; simp [mul_neg]
      · have h1' : ¬(a.id = taid) := fun hh => h1 hh.symm
        simp [h1, h1']
  | transfer =>
      cases tdest with
      | none =>
          show l = _
          conv_lhs => rw [← List.map_id l]
          rw [List.map_eq_map_iff]
          intro a _
          simp [signedEffect]
      | some dst =>
          show updateAccountBalance dst (sign * amt)
            (updateAccountBalance taid (-(sign * amt)) l) = _
          unfold updateAccountBalance
          rw [List.map_map, List.map_eq_map_iff]
          intro a _
          simp only [Function.comp, signedEffect, beq_iff_eq]
          rcases eq_or_ne taid a.id with h1 | h1 <;>
            rcases eq_or_ne dst a.id with h2 | h2
          · subst h1; subst h2
            simp
          · subst h1
            have h2' : ¬(a.id = dst) := fun hh => h2 hh.symm
            simp [h2, h2']
          · subst h2
            have h1' : ¬(a.id = taid) := fun hh => h1 hh.symm
            simp [h1, h1']
          · have h1' : ¬(a.id = taid) := fun hh => h1 hh.symm
            have h2' : ¬(a.id = dst) := fun hh => h2 hh.symm
            simp [h1, h2, h1', h2']

theorem find?_eq_some_split {α : Type} {p : α → Bool} {l : List α} {a : α}
    (h : l.find? p = some a) :
    ∃ l1 l2, l = l1 ++ a :: l2 ∧ (∀ x ∈ l1, p x = false) ∧ p a = true := by
  induction l with
  | nil => simp at h
  | cons b l ih =>
      cases hb : p b with
      | true =>
          rw [List.find?_cons_of_pos _ hb] at h
          obtain rfl : b = a := by injection h
          exact ⟨[], l, rfl, by simp, hb⟩
      | false =>
          rw [List.find?_cons_of_neg _ (by simp [hb])] at h
          obtain ⟨l1, l2, rfl, hl1, hpa⟩ := ih h
          exact ⟨b :: l1, l2, rfl, by
            intro x hx
            rcases List.mem_cons.mp hx with rfl | hx
            · exact hb
            · exact hl1 x hx, hpa⟩

/-- Composing a reverse and a forward balance effect adds both scaled
effects pointwise. -/
theorem applyBalanceEffect_comp (t1 t2 : Txn) (s1 s2 : ℚ)
    (l : List Account) :
    applyBalanceEffect t2 s2 (applyBalanceEffect t1 s1 l) =
      l.map (fun a =>
        { a with balance := a.balance + s1 * signedEffect t1 a.id +
            s2 * signedEffect t2 a.id }) := by
  rw [applyBalanceEffect_apply, applyBalanceEffect_apply, List.map_map]
  rw [List.map_eq_map_iff]
  intro a _
  simp [Function.comp]

/-- Decomposition of the transactions table around a found record, using
id uniqueness. -/
theorem txns_decomp {s : Store} {n : Nat} {t : Txn} (hwf : txnIdsOk s)
    (hfind : s.txns.find? (fun x => x.id == n) = some t) :
    ∃ l1 l2, s.txns = l1 ++ t :: l2 ∧ t.id = n ∧
      (∀ x ∈ l1, x.id ≠ n) ∧ ∀ x ∈ l2, x.id ≠ n := by
  obtain ⟨l1, l2, heq, hl1, hpt⟩ := find?_eq_some_split hfind
  have htid : t.id = n := by simpa using hpt
  refine ⟨l1, l2, heq, htid, fun x hx => ?_, fun x hx => ?_⟩
  · have := hl1 x hx
    simpa using this
  · have hnd := hwf.1
    rw [heq] at hnd
    simp only [List.map_append, List.map_cons, List.nodup_append,
      List.nodup_cons] at hnd
    intro hxid
    exact hnd.2.1.1 (by
      rw [htid, ← hxid]
      exact List.mem_map_of_mem (fun x => x.id) hx)

/-- Reduction of `deleteTransaction` when the record is found. -/
theorem deleteTransaction_eq_of_found {s : Store} {n : Nat} {t : Txn}
    (hfind : s.txns.find? (fun x => x.id == n) = some t) :
    deleteTransaction n s =
      { s with accounts := applyBalanceEffect t (-1) s.accounts
               txns := s.txns.filter (fun x => x.id != n) } := by
  unfold deleteTransaction; rw [hfind]

/-- Reduction of `updateTransaction` when the record is found. -/
theorem updateTransaction_eq_of_found {s : Store} {n : Nat} {t : Txn}
    (u : TxnUpdates)
    (hfind : s.txns.find? (fun x => x.id == n) = some t) :
    updateTransaction n u s =
      { s with accounts := applyBalanceEffect (mergeTxn t u) 1
                 (applyBalanceEffect t (-1) s.accounts)
               txns := s.txns.map (fun x =>
                 if x.id == n then mergeTxn x u else x) } := by
  unfold updateTransaction; rw [hfind]

/-- `createTransaction` preserves the ledger-consistency invariant. -/
theorem createTransaction_balanced {s : Store} (t : Txn)
    (hb : balanced s) : balanced (createTransaction t s) := by
  intro a ha
  unfold createTransaction at ha ⊢
  rw [applyBalanceEffect_apply] at ha
  obtain ⟨a0, ha0, rfl⟩ := List.mem_map.mp ha
  simp only [List.map_append, List.map_cons, List.map_nil, List.sum_append,
    List.sum_cons, List.sum_nil, signedEffect_withId]
  rw [hb a0 ha0]
  ring

/-- `createTransaction` preserves id well-formedness. -/
theorem createTransaction_txnIdsOk {s : Store} (t : Txn)
    (hwf : txnIdsOk s) : txnIdsOk (createTransaction t s) := by
  obtain ⟨hnd, hlt⟩ := hwf
  constructor
  · unfold createTransaction
    simp only [List.map_append, List.map_cons, List.map_nil]
    rw [List.nodup_append]
    refine ⟨hnd, List.nodup_singleton _, ?_⟩
    intro x hx hx1
    simp only [List.mem_cons, List.not_mem_nil, or_false] at hx1
    obtain ⟨x0, hx0, rfl⟩ := List.mem_map.mp hx
    exact absurd (hx1 ▸ hlt x0 hx0) (lt_irrefl _)
  · intro x hx
    unfold createTransaction at hx ⊢
    simp only [List.mem_append, List.mem_cons, List.not_mem_nil, or_false]
      at hx
    rcases hx with hx | rfl
    · exact Nat.lt_succ_of_lt (hlt x hx)
    · exact Nat.lt_succ_self _

/-- `deleteTransaction` preserves the ledger-consistency invariant. -/
theorem deleteTransaction_balanced {s : Store} (n : Nat)
    (hwf : txnIdsOk s) (hb : balanced s) :
    balanced (deleteTransaction n s) := by
  cases hfind : s.txns.find? (fun x => x.id == n) with
  | none =>
      have hno : deleteTransaction n s = s := by
        unfold deleteTransaction; rw [hfind]
      rw [hno]; exact hb
  | some t =>
      obtain ⟨l1, l2, heq, htid, hl1, hl2⟩ := txns_decomp hwf hfind
      rw [deleteTransaction_eq_of_found hfind]
      intro a ha
      simp only at ha ⊢
      rw [applyBalanceEffect_apply] at ha
      obtain ⟨a0, ha0, rfl⟩ := List.mem_map.mp ha
      have hfilter : s.txns.filter (fun x => x.id != n) = l1 ++ l2 := by
        rw [heq, List.filter_append, List.filter_cons]
        have : (t.id != n) = false := by simp [htid]
        rw [this]
        simp only [Bool.false_eq_true, if_false]
        congr 1
        · exact List.filter_eq_self.mpr (fun x hx => by
            simpa using hl1 x hx)
        · exact List.filter_eq_self.mpr (fun x hx => by
            simpa using hl2 x hx)
      rw [hfilter]
      have hsum := hb a0 ha0
      rw [heq] at hsum
      simp only [List.map_append, List.map_cons, List.sum_append,
        List.sum_cons] at hsum ⊢
      rw [hsum]
      ring

/-- `deleteTransaction` preserves id well-formedness. -/
theorem deleteTransaction_txnIdsOk {s : Store} (n : Nat)
    (hwf : txnIdsOk s) : txnIdsOk (deleteTransaction n s) := by
  obtain ⟨hnd, hlt⟩ := hwf
  cases hfind : s.txns.find? (fun x => x.id == n) with
  | none => unfold deleteTransaction; rw [hfind]; exact ⟨hnd, hlt⟩
  | some t =>
      rw [deleteTransaction_eq_of_found hfind]
      constructor
      · show ((s.txns.filter (fun x => x.id != n)).map
          (fun x => x.id)).Nodup
        exact List.Nodup.sublist
          (List.Sublist.map (fun x : Txn => x.id)
            (List.filter_sublist _)) hnd
      · intro x hx
        have hx' : x ∈ s.txns.filter (fun x => x.id != n) := hx
        exact hlt x (List.mem_of_mem_filter hx')

/-- `updateTransaction` preserves the ledger-consistency invariant. -/
theorem updateTransaction_balanced {s : Store} (n : Nat) (u : TxnUpdates)
    (hwf : txnIdsOk s) (hb : balanced s) :
    balanced (updateTransaction n u s) := by
  cases hfind : s.txns.find? (fun x => x.id == n) with
  | none =>
      have hno : updateTransaction n u s = s := by
        unfold updateTransaction; rw [hfind]
      rw [hno]; exact hb
  | some t =>
      obtain ⟨l1, l2, heq, htid, hl1, hl2⟩ := txns_decomp hwf hfind
      rw [updateTransaction_eq_of_found u hfind]
      intro a ha
      simp only at ha ⊢
      rw [applyBalanceEffect_comp] at ha
      obtain ⟨a0, ha0, rfl⟩ := List.mem_map.mp ha
      have hmap : s.txns.map
          (fun x => if x.id == n then mergeTxn x u else x) =
          l1 ++ mergeTxn t u :: l2 := by
        rw [heq, List.map_append, List.map_cons]
        have e1 : l1.map (fun x => if x.id == n then mergeTxn x u else x) =
            l1.map id :=
          List.map_eq_map_iff.mpr (fun x hx => by simp [hl1 x hx])
        have e2 : l2.map (fun x => if x.id == n then mergeTxn x u else x) =
            l2.map id :=
          List.map_eq_map_iff.mpr (fun x hx => by simp [hl2 x hx])
        rw [e1, e2, List.map_id, List.map_id]
        have e3 : (if t.id == n then mergeTxn t u else t) = mergeTxn t u :=
          by simp [htid]
        rw [e3]
      rw [hmap]
      have hsum := hb a0 ha0
      rw [heq] at hsum
      simp only [List.map_append, List.map_cons, List.sum_append,
        List.sum_cons] at hsum ⊢
      rw [hsum]
      ring

/-- `mergeTxn` keeps the primary key. -/
theorem mergeTxn_id (t : Txn) (u : TxnUpdates) : (mergeTxn t u).id = t.id :=
  rfl

/-- `updateTransaction` preserves id well-formedness. -/
theorem updateTransaction_txnIdsOk {s : Store} (n : Nat) (u : TxnUpdates)
    (hwf : txnIdsOk s) : txnIdsOk (updateTransaction n u s) := by
  obtain ⟨hnd, hlt⟩ := hwf
  cases hfind : s.txns.find? (fun x => x.id == n) with
  | none => unfold updateTransaction; rw [hfind]; exact ⟨hnd, hlt⟩
  | some t =>
      rw [updateTransaction_eq_of_found u hfind]
      have hids : (s.txns.map
          (fun x => if x.id == n then mergeTxn x u else x)).map
            (fun x => x.id) = s.txns.map (fun x => x.id) := by
        rw [List.map_map]
        exact List.map_eq_map_iff.mpr (fun x _ => by
          by_cases h : x.id = n <;> simp [Function.comp, h, mergeTxn_id])
      refine ⟨?_, ?_⟩
      · simpa only [hids] using hnd
      · intro x hx
        simp only [List.mem_map] at hx
        obtain ⟨x0, hx0, rfl⟩ := hx
        have hid : (if x0.id == n then mergeTxn x0 u else x0).id = x0.id :=
          by by_cases h : x0.id = n <;> simp [h, mergeTxn_id]
        rw [hid]
        exact hlt x0 hx0

/-! ## CSV structure lemmas -/

/-- Character-level counterpart of `joinSep` for a one-character
separator. -/
def joinData (c : Char) : List (List Char) → List Char
  | [] => []
  | [x] => x
  | x :: y :: ys => x ++ c :: joinData c (y :: ys)

theorem joinSep_data {sep : String} {c : Char} (hsep : sep.data = [c]) :
    ∀ l : List String, (joinSep sep l).data = joinData c (l.map String.data)
  | [] => rfl
  | [x] => rfl
  | x :: y :: ys => by
      show (x ++ sep ++ joinSep sep (y :: ys)).data = _
      rw [String.data_append, String.data_append, hsep,
        joinSep_data hsep (y :: ys)]
      simp [joinData]

theorem splitCh_not_mem {c : Char} : ∀ {x : List Char}, c ∉ x →
    splitCh c x = [x]
  | [], _ => rfl
  | a :: x, h => by
      have ha : ¬(a = c) := fun hh => h (hh ▸ List.mem_cons_self a x)
      rw [splitCh, if_neg ha,
        splitCh_not_mem (fun hh => h (List.mem_cons_of_mem a hh))]

theorem splitCh_append {c : Char} : ∀ {x : List Char}, c ∉ x →
    ∀ rest : List Char, splitCh c (x ++ c :: rest) = x :: splitCh c rest
  | [], _, rest => by
      show splitCh c (c :: rest) = [] :: splitCh c rest
      rw [splitCh, if_pos rfl]
  | a :: x, h, rest => by
      have ha : ¬(a = c) := fun hh => h (hh ▸ List.mem_cons_self a x)
      show splitCh c (a :: (x ++ c :: rest)) = _
      rw [splitCh, if_neg ha,
        splitCh_append (fun hh => h (List.mem_cons_of_mem a hh)) rest]

theorem splitCh_joinData {c : Char} : ∀ {parts : List (List Char)},
    parts ≠ [] → (∀ p ∈ parts, c ∉ p) →
    splitCh c (joinData c parts) = parts
  | [], hne, _ => absurd rfl hne
  | [x], _, h => by
      show splitCh c x = [x]
      exact splitCh_not_mem (h x (by simp))
  | x :: y :: ys, _, h => by
      show splitCh c (x ++ c :: joinData c (y :: ys)) = _
      rw [splitCh_append (h x (by simp)) _,
        splitCh_joinData (by simp) (fun p hp => h p (List.mem_cons_of_mem x hp))]

theorem mem_joinData {c a : Char} : ∀ {parts : List (List Char)},
    a ∈ joinData c parts → a = c ∨ ∃ p ∈ parts, a ∈ p
  | [], h => absurd h (List.not_mem_nil a)
  | [x], h => Or.inr ⟨x, by simp, h⟩
  | x :: y :: ys, h => by
      rw [show joinData c (x :: y :: ys) = x ++ c :: joinData c (y :: ys)
        from rfl] at h
      rcases List.mem_append.mp h with hx | hrest
      · exact Or.inr ⟨x, by simp, hx⟩
      · rcases List.mem_cons.mp hrest with rfl | hrest
        · exact Or.inl rfl
        · rcases mem_joinData hrest with hc | ⟨p, hp, hap⟩
          · exact Or.inl hc
          · exact Or.inr ⟨p, List.mem_cons_of_mem x hp, hap⟩

theorem quote_data (cell : String) :
    ("\"" ++ cell ++ "\"").data = '"' :: (cell.data ++ ['"']) := by
  rw [String.data_append, String.data_append]
  show ['"'] ++ cell.data ++ ['"'] = _
  simp

theorem mk_data_id (l : List String) :
    l.map (fun d => String.mk d.data) = l := by
  show l.map id = l
  exact List.map_id l

theorem map_mk_map_data (l : List String) :
    (l.map String.data).map String.mk = l := by
  rw [List.map_map]
  show l.map id = l
  exact List.map_id l

/-- Fields of one rendered CSV row: with clean cells, splitting the
comma-joined quoted cells at commas recovers exactly the quoted cells. -/
theorem rowLine_fields (cells : List String) (hne : cells ≠ [])
    (hclean : ∀ cell ∈ cells,
      '"' ∉ cell.data ∧ ',' ∉ cell.data ∧ '\n' ∉ cell.data) :
    lineFields (joinSep ","
        (cells.map (fun cell => "\"" ++ cell ++ "\""))) =
      cells.map (fun cell => "\"" ++ cell ++ "\"") := by
  unfold lineFields
  rw [joinSep_data rfl]
  rw [splitCh_joinData (by simp [hne]) ?hnocomma]
  · exact map_mk_map_data _
  case hnocomma =>
    intro p hp
    rw [List.mem_map] at hp
    obtain ⟨q, hq, rfl⟩ := hp
    rw [List.mem_map] at hq
    obtain ⟨cell, hcell, rfl⟩ := hq
    rw [quote_data]
    intro hmem
    rcases List.mem_cons.mp hmem with hc | hmem
    · exact absurd hc (by decide)
    · rcases List.mem_append.mp hmem with hc | hc
      · exact absurd hc (hclean cell hcell).2.1
      · rcases List.mem_singleton.mp hc with hc
        exact absurd hc (by decide)

/-- A rendered CSV row made of clean cells contains no newline. -/
theorem rowLine_no_newline (cells : List String)
    (hclean : ∀ cell ∈ cells,
      '"' ∉ cell.data ∧ ',' ∉ cell.data ∧ '\n' ∉ cell.data) :
    '\n' ∉ (joinSep ","
      (cells.map (fun cell => "\"" ++ cell ++ "\""))).data := by
  rw [joinSep_data rfl]
  intro hmem
  rcases mem_joinData hmem with hc | ⟨p, hp, hap⟩
  · exact absurd hc (by decide)
  · rw [List.mem_map] at hp
    obtain ⟨q, hq, rfl⟩ := hp
    rw [List.mem_map] at hq
    obtain ⟨cell, hcell, rfl⟩ := hq
    rw [quote_data] at hap
    rcases List.mem_cons.mp hap with hc | hmem2
    · exact absurd hc (by decide)
    · rcases List.mem_append.mp hmem2 with hc | hc
      · exact absurd hc (hclean cell hcell).2.2
      · exact absurd (List.mem_singleton.mp hc) (by decide)

/-- One step of the Balance Maintainer preserves both store invariants. -/
theorem applyOp_invariants {s : Store} (op : LedgerOp) (hwf : txnIdsOk s)
    (hb : balanced s) :
    txnIdsOk (applyOp s op) ∧ balanced (applyOp s op) := by
  cases op with
  | create t =>
      exact ⟨createTransaction_txnIdsOk t hwf,
        createTransaction_balanced t hb⟩
  | update n u =>
      exact ⟨updateTransaction_txnIdsOk n u hwf,
        updateTransaction_balanced n u hwf hb⟩
  | delete n =>
      exact ⟨deleteTransaction_txnIdsOk n hwf,
        deleteTransaction_balanced n hwf hb⟩

/-- When no stored transaction matches, `find?` over the table extended by
one record reduces to checking that record. -/
theorem find?_append_singleton {α : Type} {p : α → Bool} {l : List α}
    (h : ∀ x ∈ l, p x = false) (a : α) (hpa : p a = true) :
    (l ++ [a]).find? p = some a := by
  induction l with
  | nil => simp [List.find?, hpa]
  | cons b l ih =>
      have hb := h b (by simp)
      rw [List.cons_append, List.find?_cons_of_neg _ (by simp [hb])]
      exact ih (fun x hx => h x (by simp [hx]))

/-- C1 — For every sequence of `createTransaction` / `updateTransaction` /
`deleteTransaction` operations starting from a well-formed store in which
every account balance equals the sum of the signed effects (income:
`+amount` on the source; expense: `-amount` on the source; transfer:
`-amount` on source and `+amount` on destination when a destination is
present) of the transactions referencing it, the final balance of every
account again equals the sum of signed effects of all transactions then
stored. -/
theorem claim1_balances_are_sums_of_effects (s : Store)
    (ops : List LedgerOp) (hwf : txnIdsOk s) (hb : balanced s) :
    balanced (applyOps s ops) := by
  induction ops generalizing s with
  | nil => exact hb
  | cons op ops ih =>
      obtain ⟨hwf', hb'⟩ := applyOp_invariants op hwf hb
      exact ih (applyOp s op) hwf' hb'

/-- Witness for C1 at a concrete store and operation sequence. -/
theorem claim1_witness :
    (txnIdsOk ⟨[⟨1, 7, "Cash", 0⟩], [], [], 1, 1⟩ ∧
      balanced ⟨[⟨1, 7, "Cash", 0⟩], [], [], 1, 1⟩) ∧
    balanced (applyOps ⟨[⟨1, 7, "Cash", 0⟩], [], [], 1, 1⟩
      [.create ⟨0, 7, 1, 1, .income, 50, 0, none, none⟩,
       .update 1 (amountOnly 80), .delete 1]) :=
  ⟨⟨by decide, by decide⟩,
    claim1_balances_are_sums_of_effects _ _ (by decide) (by decide)⟩

/-- C2 — Creating a transaction and then immediately deleting the created
record restores the accounts table (hence every balance) exactly, for every
transaction input and every store whose transaction ids respect the
auto-increment counter. -/
theorem claim2_create_delete_roundtrip (s : Store) (t : Txn)
    (hfresh : ∀ x ∈ s.txns, x.id < s.nextTxnId) :
    (deleteTransaction s.nextTxnId (createTransaction t s)).accounts =
      s.accounts := by
  have hfind : (createTransaction t s).txns.find?
      (fun x => x.id == s.nextTxnId) = some { t with id := s.nextTxnId } := by
    show (s.txns ++ [_]).find? _ = _
    refine find?_append_singleton (fun x hx => ?_) _ (by simp)
    have := hfresh x hx
    simp only [beq_eq_false_iff_ne, ne_eq]
    exact Nat.ne_of_lt this
  rw [deleteTransaction_eq_of_found hfind]
  show applyBalanceEffect { t with id := s.nextTxnId } (-1)
      (createTransaction t s).accounts = s.accounts
  have : (createTransaction t s).accounts =
      applyBalanceEffect t 1 s.accounts := rfl
  rw [this, applyBalanceEffect_comp]
  have hpt : ∀ a ∈ s.accounts,
      ({ a with balance := a.balance + 1 * signedEffect t a.id +
          (-1) * signedEffect { t with id := s.nextTxnId } a.id } :
        Account) = id a := by
    intro a _
    rw [signedEffect_withId t s.nextTxnId]
    simp
  rw [List.map_eq_map_iff.mpr hpt, List.map_id]

/-- Witness for C2 at a concrete store and transaction. -/
theorem claim2_witness :
    (∀ x ∈ (Store.mk [⟨1, 7, "Cash", 10⟩] [] [] 1 1).txns,
      x.id < (Store.mk [⟨1, 7, "Cash", 10⟩] [] [] 1 1).nextTxnId) ∧
    (deleteTransaction 1 (createTransaction
      ⟨0, 7, 1, 1, .expense, 4, 0, none, none⟩
      (Store.mk [⟨1, 7, "Cash", 10⟩] [] [] 1 1))).accounts =
      (Store.mk [⟨1, 7, "Cash", 10⟩] [] [] 1 1).accounts :=
  ⟨by decide, claim2_create_delete_roundtrip
    (Store.mk [⟨1, 7, "Cash", 10⟩] [] [] 1 1)
    ⟨0, 7, 1, 1, .expense, 4, 0, none, none⟩ (by decide)⟩

/-- C9 — `deleteTransaction` and `updateTransaction` on an id absent from
the transactions table are silent no-ops: the whole store (all collections
and all balances) is unchanged. -/
theorem claim9_missing_id_noop (s : Store) (n : Nat) (u : TxnUpdates)
    (habs : ∀ x ∈ s.txns, x.id ≠ n) :
    deleteTransaction n s = s ∧ updateTransaction n u s = s := by
  have hfind : s.txns.find? (fun x => x.id == n) = none :=
    List.find?_eq_none.mpr (fun x hx => by simp [habs x hx])
  constructor
  · unfold deleteTransaction; rw [hfind]
  · unfold updateTransaction; rw [hfind]

/-- Witness for C9 at a concrete store and absent id. -/
theorem claim9_witness :
    (∀ x ∈ (Store.mk [⟨1, 7, "Cash", 10⟩] []
        [⟨1, 7, 1, 1, .income, 5, 0, none, none⟩] 2 1).txns,
      x.id ≠ 9) ∧
    (deleteTransaction 9 (Store.mk [⟨1, 7, "Cash", 10⟩] []
        [⟨1, 7, 1, 1, .income, 5, 0, none, none⟩] 2 1) =
      Store.mk [⟨1, 7, "Cash", 10⟩] []
        [⟨1, 7, 1, 1, .income, 5, 0, none, none⟩] 2 1 ∧
     updateTransaction 9 (amountOnly 3) (Store.mk [⟨1, 7, "Cash", 10⟩] []
        [⟨1, 7, 1, 1, .income, 5, 0, none, none⟩] 2 1) =
      Store.mk [⟨1, 7, "Cash", 10⟩] []
        [⟨1, 7, 1, 1, .income, 5, 0, none, none⟩] 2 1) :=
  ⟨by decide, claim9_missing_id_noop _ 9 (amountOnly 3) (by decide)⟩

/-- A transfer without a destination account applies no balance change. -/
theorem applyBalanceEffect_transfer_noDest {t : Txn} (sign : ℚ)
    (l : List Account) (h1 : t.type = .transfer)
    (h2 : t.destinationAccountId = none) :
    applyBalanceEffect t sign l = l := by
  rcases t with ⟨tid, tuid, taid, tcid, ty, amt, tdate, tnote, tdest⟩
  simp only at h1 h2
  subst h1; subst h2
  rfl

/-- C10 — For a transfer transaction whose `destinationAccountId` is
absent, `createTransaction` stores the record but changes no balance,
`deleteTransaction` removes it but changes no balance, and
`updateTransaction` whose merged result is still a destination-less
transfer changes no balance either. -/
theorem claim10_transfer_no_destination :
    (∀ (t : Txn) (s : Store), t.type = .transfer →
      t.destinationAccountId = none →
      (createTransaction t s).accounts = s.accounts ∧
      (createTransaction t s).txns =
        s.txns ++ [{ t with id := s.nextTxnId }]) ∧
    (∀ (s : Store) (n : Nat) (t : Txn),
      s.txns.find? (fun x => x.id == n) = some t → t.type = .transfer →
      t.destinationAccountId = none →
      (deleteTransaction n s).accounts = s.accounts) ∧
    (∀ (s : Store) (n : Nat) (u : TxnUpdates) (t : Txn),
      s.txns.find? (fun x => x.id == n) = some t → t.type = .transfer →
      t.destinationAccountId = none → (mergeTxn t u).type = .transfer →
      (mergeTxn t u).destinationAccountId = none →
      (updateTransaction n u s).accounts = s.accounts) := by
  refine ⟨fun t s h1 h2 => ⟨?_, rfl⟩, fun s n t hfind h1 h2 => ?_,
    fun s n u t hfind h1 h2 h3 h4 => ?_⟩
  · show applyBalanceEffect t 1 s.accounts = s.accounts
    exact applyBalanceEffect_transfer_noDest 1 s.accounts h1 h2
  · rw [deleteTransaction_eq_of_found hfind]
    show applyBalanceEffect t (-1) s.accounts = s.accounts
    exact applyBalanceEffect_transfer_noDest (-1) s.accounts h1 h2
  · rw [updateTransaction_eq_of_found u hfind]
    show applyBalanceEffect (mergeTxn t u) 1
      (applyBalanceEffect t (-1) s.accounts) = s.accounts
    rw [applyBalanceEffect_transfer_noDest (-1) s.accounts h1 h2]
    exact applyBalanceEffect_transfer_noDest 1 s.accounts h3 h4

/-- Witness for C10 at a concrete destination-less transfer. -/
theorem claim10_witness :
    (createTransaction ⟨0, 7, 1, 1, .transfer, 5, 0, none, none⟩
      ⟨[⟨1, 7, "Cash", 10⟩], [], [], 1, 1⟩).accounts =
      (⟨[⟨1, 7, "Cash", 10⟩], [], [], 1, 1⟩ : Store).accounts :=
  (claim10_transfer_no_destination.1
    ⟨0, 7, 1, 1, .transfer, 5, 0, none, none⟩
    ⟨[⟨1, 7, "Cash", 10⟩], [], [], 1, 1⟩ rfl rfl).1

/-- C5 counterexample — updating only the amount (10 → 30) of a stored
transfer transaction (source account 1, destination account 2) changes the
balance of account 2, which is not the transaction's source account, so it
is false that every account other than the source is unchanged. -/
theorem claim5_counterexample :
    getBalance (updateTransaction 1 (amountOnly 30)
        (Store.mk [⟨1, 7, "A", 0⟩, ⟨2, 7, "B", 0⟩] []
          [⟨1, 7, 1, 1, .transfer, 10, 0, none, some 2⟩] 2 1)) 2 ≠
      getBalance (Store.mk [⟨1, 7, "A", 0⟩, ⟨2, 7, "B", 0⟩] []
        [⟨1, 7, 1, 1, .transfer, 10, 0, none, some 2⟩] 2 1) 2 ∧
    (2 : Nat) ≠
      (Txn.mk 1 7 1 1 .transfer 10 0 none (some 2)).accountId := by
  constructor
  · norm_num [getBalance, updateTransaction, List.find?, amountOnly,
      mergeTxn, applyBalanceEffect, updateAccountBalance]
    decide
  · decide

/-- C5 (amended) — Updating only a transaction's amount from `A` to `B`
(same account, same type) changes, for income and expense, the source
account's balance by exactly `(B - A) * sign(type)` with every other
account unchanged; for a transfer with a destination it additionally
changes the destination balance by `+(B - A)` (the source by `-(B - A)`);
and for a transfer without a destination it changes nothing. -/
theorem claim5_amount_update_delta (s : Store) (n : Nat) (t : Txn) (B : ℚ)
    (hfind : s.txns.find? (fun x => x.id == n) = some t) :
    (t.type ≠ .transfer →
      (updateTransaction n (amountOnly B) s).accounts =
        s.accounts.map (fun a =>
          if a.id = t.accountId then
            { a with balance :=
                a.balance + (B - t.amount) * typeSign t.type }
          else a)) ∧
    (∀ dst, t.type = .transfer → t.destinationAccountId = some dst →
      (updateTransaction n (amountOnly B) s).accounts =
        s.accounts.map (fun a =>
          { a with balance := a.balance +
              ((if a.id = t.accountId then -(B - t.amount) else 0) +
                (if a.id = dst then B - t.amount else 0)) })) ∧
    (t.type = .transfer → t.destinationAccountId = none →
      (updateTransaction n (amountOnly B) s).accounts = s.accounts) := by
  have hacc : (updateTransaction n (amountOnly B) s).accounts =
      s.accounts.map (fun a =>
        { a with balance := a.balance + (-1) * signedEffect t a.id +
            1 * signedEffect { t with amount := B } a.id }) := by
    rw [updateTransaction_eq_of_found (amountOnly B) hfind]
    show applyBalanceEffect (mergeTxn t (amountOnly B)) 1
      (applyBalanceEffect t (-1) s.accounts) = _
    rw [signedEffect_mergeTxn_amountOnly, applyBalanceEffect_comp]
  rcases t with ⟨tid, tuid, taid, tcid, ty, amt, tdate, tnote, tdest⟩
  refine ⟨fun hty => ?_, fun dst hty hdst => ?_, fun hty hdst => ?_⟩
  · rw [hacc, List.map_eq_map_iff]
    intro a _
    simp only at hty ⊢
    cases ty with
    | transfer => exact absurd rfl hty
    | income =>
        simp only [signedEffect, typeSign]
        rcases eq_or_ne taid a.id with h1 | h1
        · subst h1
          simp
          ring
        · have h1' : ¬(a.id = taid) := fun hh => h1 hh.symm
          simp [h1, h1']
    | expense =>
        simp only [signedEffect, typeSign]
        rcases eq_or_ne taid a.id with h1 | h1
        · subst h1
          simp
          ring
        · have h1' : ¬(a.id = taid) := fun hh => h1 hh.symm
          simp [h1, h1']
  · simp only at hty hdst
    subst hty; subst hdst
    rw [hacc, List.map_eq_map_iff]
    intro a _
    simp only [signedEffect, Account.mk.injEq, true_and]
    rcases eq_or_ne taid a.id with h1 | h1 <;>
      rcases eq_or_ne dst a.id with h2 | h2
    · subst h1; subst h2
      simp
    · subst h1
      have h2' : ¬(a.id = dst) := fun hh => h2 hh.symm
      simp [h2, h2']
      ring
    · subst h2
      have h1' : ¬(a.id = taid) := fun hh => h1 hh.symm
      simp [h1, h1']
      ring
    · have h1' : ¬(a.id = taid) := fun hh => h1 hh.symm
      have h2' : ¬(a.id = dst) := fun hh => h2 hh.symm
      simp [h1, h2, h1', h2']
  · simp only at hty hdst
    subst hty; subst hdst
    rw [hacc]
    have hpt : ∀ a ∈ s.accounts,
        ({ a with balance := a.balance +
            (-1) * signedEffect ⟨tid, tuid, taid, tcid, .transfer, amt,
              tdate, tnote, none⟩ a.id +
            1 * signedEffect ⟨tid, tuid, taid, tcid, .transfer, B,
              tdate, tnote, none⟩ a.id } : Account) = id a := by
      intro a _
      simp [signedEffect]
    rw [List.map_eq_map_iff.mpr hpt, List.map_id]

/-- Witness for C5 at a concrete income transaction, amount 10 → 30. -/
theorem claim5_witness :
    ((Store.mk [⟨1, 7, "A", 5⟩] []
        [⟨1, 7, 1, 1, .income, 10, 0, none, none⟩] 2 1).txns.find?
      (fun x => x.id == 1) =
        some ⟨1, 7, 1, 1, .income, 10, 0, none, none⟩) ∧
    ((Txn.mk 1 7 1 1 .income 10 0 none none).type ≠ .transfer →
      (updateTransaction 1 (amountOnly 30)
        (Store.mk [⟨1, 7, "A", 5⟩] []
          [⟨1, 7, 1, 1, .income, 10, 0, none, none⟩] 2 1)).accounts =
      (Store.mk [⟨1, 7, "A", 5⟩] []
          [⟨1, 7, 1, 1, .income, 10, 0, none, none⟩] 2 1).accounts.map
        (fun a =>
          if a.id = (Txn.mk 1 7 1 1 .income 10 0 none none).accountId then
            { a with balance := a.balance +
                ((30 : ℚ) - (Txn.mk 1 7 1 1 .income 10 0 none none).amount) *
                  typeSign (Txn.mk 1 7 1 1 .income 10 0 none none).type }
          else a)) :=
  ⟨by decide,
    (claim5_amount_update_delta
      (Store.mk [⟨1, 7, "A", 5⟩] []
        [⟨1, 7, 1, 1, .income, 10, 0, none, none⟩] 2 1) 1
      ⟨1, 7, 1, 1, .income, 10, 0, none, none⟩ 30 (by decide)).1⟩

/-- Every seeded category belongs to the seeded user. -/
theorem seededCategoriesFor_userId (u n : Nat) :
    ∀ x ∈ seededCategoriesFor u n, x.userId = u := by
  intro x hx
  obtain ⟨p, _, rfl⟩ := List.mem_map.mp hx
  rfl

/-- Exactly 23 categories are seeded. -/
theorem seededCategoriesFor_length (u n : Nat) :
    (seededCategoriesFor u n).length = 23 := by
  rw [seededCategoriesFor, List.length_map, List.enum_length]
  rfl

/-- Filtering the seeded categories by type counts the seed rows of that
type (the assigned ids and the user are irrelevant to the type filter). -/
theorem seededCategoriesFor_filter_type_aux (u n : Nat)
    (q : TxnType → Bool) :
    ∀ (k : Nat) (l : List (String × TxnType × String)),
      (((List.enumFrom k l).map (fun p =>
        (⟨n + p.1, u, p.2.1, p.2.2.1, some p.2.2.2⟩ : Category))).filter
          (fun c => q c.type)).length =
      (l.filter (fun p => q p.2.1)).length := by
  intro k l
  induction l generalizing k with
  | nil => rfl
  | cons x l ih =>
      simp only [List.enumFrom, List.map_cons, List.filter_cons]
      cases hq : q x.2.1 with
      | true => simp [hq, ih]
      | false => simp [hq, ih]

theorem seededCategoriesFor_filter_type (u n : Nat) (q : TxnType → Bool) :
    ((seededCategoriesFor u n).filter (fun c => q c.type)).length =
      (defaultCategorySeeds.filter (fun p => q p.2.1)).length :=
  seededCategoriesFor_filter_type_aux u n q 0 defaultCategorySeeds

/-- C8 — `seedCategories` is idempotent: a second run for the same user is
a no-op, and a fresh user (no existing categories) ends with exactly the
23 default categories — 6 income, 11 expense and 6 transfer — not 46. -/
theorem claim8_seed_idempotent (u : Nat) (s : Store) :
    seedCategories u (seedCategories u s) = seedCategories u s ∧
    ((s.categories.filter (fun c => c.userId == u)).length = 0 →
      ((seedCategories u s).categories.filter
          (fun c => c.userId == u)).length = 23 ∧
      ((seedCategories u s).categories.filter
          (fun c => c.userId == u && c.type == .income)).length = 6 ∧
      ((seedCategories u s).categories.filter
          (fun c => c.userId == u && c.type == .expense)).length = 11 ∧
      ((seedCategories u s).categories.filter
          (fun c => c.userId == u && c.type == .transfer)).length = 6) := by
  have hseeded : ∀ (q : Category → Bool),
      (∀ x ∈ seededCategoriesFor u s.nextCategoryId,
        q x = (fun c => c.userId == u) x) →
      ((seededCategoriesFor u s.nextCategoryId).filter q).length = 23 := by
    intro q hq
    rw [List.filter_congr hq]
    rw [List.filter_eq_self.mpr (fun x hx => by
      simp [seededCategoriesFor_userId u s.nextCategoryId x hx])]
    exact seededCategoriesFor_length u s.nextCategoryId
  by_cases h : 0 < (s.categories.filter (fun c => c.userId == u)).length
  · have e : seedCategories u s = s := by
      unfold seedCategories; rw [if_pos h]
    rw [e]
    exact ⟨e, fun h0 => absurd h0 (by omega)⟩
  · have h0 : (s.categories.filter (fun c => c.userId == u)).length = 0 :=
      Nat.eq_zero_of_not_pos h
    have hall : ∀ x ∈ s.categories, ¬((fun c => c.userId == u) x = true) :=
      List.filter_eq_nil_iff.mp (List.length_eq_zero.mp h0)
    have e : seedCategories u s =
        { s with
          categories := s.categories ++
            seededCategoriesFor u s.nextCategoryId,
          nextCategoryId :=
            s.nextCategoryId + defaultCategorySeeds.length } := by
      unfold seedCategories; rw [if_neg h]
    have hlen2 : (((s.categories ++
        seededCategoriesFor u s.nextCategoryId).filter
          (fun c => c.userId == u)).length) = 23 := by
      rw [List.filter_append, List.length_append, h0,
        hseeded _ (fun x _ => rfl)]
    constructor
    · rw [e]
      unfold seedCategories
      rw [if_pos (by simp only at hlen2 ⊢; rw [hlen2]; omega)]
    · intro _
      have hsplit : ∀ (ty : TxnType),
          ((seedCategories u s).categories.filter
            (fun c => c.userId == u && c.type == ty)).length =
          (defaultCategorySeeds.filter (fun p => p.2.1 == ty)).length := by
        intro ty
        rw [e]
        show ((s.categories ++ seededCategoriesFor u s.nextCategoryId).filter
          _).length = _
        rw [List.filter_append, List.length_append]
        have hz : (s.categories.filter
            (fun c => c.userId == u && c.type == ty)).length = 0 := by
          rw [List.length_eq_zero, List.filter_eq_nil_iff]
          intro x hx
          simp only [Bool.and_eq_true, not_and]
          intro hxu
          exact absurd hxu (hall x hx)
        rw [hz]
        have hcong : (seededCategoriesFor u s.nextCategoryId).filter
            (fun c => c.userId == u && c.type == ty) =
            (seededCategoriesFor u s.nextCategoryId).filter
              (fun c => c.type == ty) :=
          List.filter_congr (fun x hx => by
            simp [seededCategoriesFor_userId u s.nextCategoryId x hx])
        rw [hcong, seededCategoriesFor_filter_type u s.nextCategoryId
          (fun t => t == ty)]
        omega
      refine ⟨?_, ?_, ?_, ?_⟩
      · rw [e]
        show ((s.categories ++ seededCategoriesFor u s.nextCategoryId).filter
          _).length = _
        exact hlen2
      · rw [hsplit .income]; decide
      · rw [hsplit .expense]; decide
      · rw [hsplit .transfer]; decide

/-- C3 — evidence of a code bug: `getMonthlyCashflow` always returns
exactly `months` rows (empty months yield zero rows rather than being
omitted), so the `monthlyCashflow.length < 3` guard in
`getCashflowForecast` can never fire and the documented "fewer than 3
months of history ⇒ zero forecast" behaviour is unreachable.  A user with
exactly 2 months of history (income 100 in each of the two preceding
months) receives the moving-average forecast `(67, 0, 67)` with low
confidence instead of the zero forecast the specification demands. -/
theorem claim3_forecast_guard_unreachable :
    (∀ (now : ℚ) (u : Nat) (txns : List Txn),
      (getMonthlyCashflow now u txns 6).length = 6) ∧
    getCashflowForecast 0 7
      [⟨1, 7, 1, 1, .income, 100, -2, none, none⟩,
       ⟨2, 7, 1, 1, .income, 100, -1, none, none⟩] =
      ⟨67, 0, 67, .low⟩ ∧
    (67 : ℤ) ≠ 0 := by
  refine ⟨fun now u txns => rfl, ?_, by decide⟩
  have hm : (getMonthlyCashflow 0 7
      [⟨1, 7, 1, 1, .income, 100, -2, none, none⟩,
       ⟨2, 7, 1, 1, .income, 100, -1, none, none⟩] 6) =
      [⟨-5, 0, 0, 0⟩, ⟨-4, 0, 0, 0⟩, ⟨-3, 0, 0, 0⟩,
       ⟨-2, 100, 0, 100⟩, ⟨-1, 100, 0, 100⟩, ⟨0, 0, 0, 0⟩] := by
    simp +decide [getMonthlyCashflow, List.range_succ, List.filter_cons,
      List.filter_nil]
  rw [getCashflowForecast, hm]
  norm_num [calculateVariance, jsRound]

/-- The population variance is nonnegative. -/
theorem calculateVariance_nonneg (l : List ℚ) :
    0 ≤ calculateVariance l := by
  unfold calculateVariance
  split
  · exact le_refl 0
  · exact div_nonneg
      (List.sum_nonneg (fun x hx => by
        obtain ⟨y, _, rfl⟩ := List.mem_map.mp hx
        exact sq_nonneg _))
      (Nat.cast_nonneg _)

/-- With nonnegative transaction amounts, every monthly income of the
forecast window is nonnegative. -/
theorem forecastWindowIncomes_nonneg (now : ℚ) (u : Nat) (txns : List Txn)
    (hpos : ∀ t ∈ txns, 0 ≤ t.amount) :
    ∀ x ∈ forecastWindowIncomes now u txns, 0 ≤ x := by
  intro x hx
  unfold forecastWindowIncomes at hx
  obtain ⟨m, hm, rfl⟩ := List.mem_map.mp hx
  have hm' : m ∈ getMonthlyCashflow now u txns 6 := List.mem_of_mem_drop hm
  unfold getMonthlyCashflow at hm'
  obtain ⟨i, _, rfl⟩ := List.mem_map.mp hm'
  exact List.sum_nonneg (fun a ha => by
    obtain ⟨t, ht, rfl⟩ := List.mem_map.mp ha
    exact hpos t (List.mem_of_mem_filter (List.mem_of_mem_filter ht)))

/-- With nonnegative transaction amounts, `avgIncome` is nonnegative. -/
theorem forecastAvgIncome_nonneg (now : ℚ) (u : Nat) (txns : List Txn)
    (hpos : ∀ t ∈ txns, 0 ≤ t.amount) :
    0 ≤ forecastAvgIncome now u txns :=
  div_nonneg
    (List.sum_nonneg (forecastWindowIncomes_nonneg now u txns hpos))
    (by norm_num)

/-- C7 — With nonnegative transaction amounts, the forecast confidence is
exactly the claimed function of the 3-month income window's coefficient of
variation (population standard deviation over mean, taken as 1 when the
mean income is not positive): `high` iff it is below 0.2, `low` iff it is
above 0.5, `medium` otherwise. -/
theorem claim7_confidence_thresholds (now : ℚ) (u : Nat) (txns : List Txn)
    (hpos : ∀ t ∈ txns, 0 ≤ t.amount) :
    ∀ cv : ℝ,
      cv = (if forecastAvgIncome now u txns = 0 then 1 else
        Real.sqrt (calculateVariance (forecastWindowIncomes now u txns)) /
          (forecastAvgIncome now u txns : ℝ)) →
      (((getCashflowForecast now u txns).confidence = .high ↔
          cv < 0.2) ∧
        ((getCashflowForecast now u txns).confidence = .low ↔
          (0.5 : ℝ) < cv) ∧
        ((getCashflowForecast now u txns).confidence = .medium ↔
          ¬(cv < 0.2) ∧ ¬((0.5 : ℝ) < cv))) := by
  intro cv hcv
  have hμnn : 0 ≤ forecastAvgIncome now u txns :=
    forecastAvgIncome_nonneg now u txns hpos
  have hconf : (getCashflowForecast now u txns).confidence =
      (if 0 < forecastAvgIncome now u txns then
        if calculateVariance (forecastWindowIncomes now u txns) <
            (1 / 5 * forecastAvgIncome now u txns) ^ 2 then Confidence.high
        else if (1 / 2 * forecastAvgIncome now u txns) ^ 2 <
            calculateVariance (forecastWindowIncomes now u txns) then
          Confidence.low
        else Confidence.medium
      else Confidence.low) := rfl
  rw [hconf]
  by_cases hμ0 : forecastAvgIncome now u txns = 0
  case pos =>
    rw [if_pos hμ0] at hcv
    rw [if_neg (by rw [hμ0]; exact lt_irrefl 0)]
    subst hcv
    refine ⟨iff_of_false (by simp) (by norm_num),
      iff_of_true rfl (by norm_num),
      iff_of_false (by simp) ?_⟩
    rintro ⟨_, hn2⟩
    exact hn2 (by norm_num)
  case neg =>
    have hμ : 0 < forecastAvgIncome now u txns :=
      lt_of_le_of_ne hμnn (Ne.symm hμ0)
    rw [if_neg hμ0] at hcv
    rw [if_pos hμ]
    have hv : 0 ≤ calculateVariance (forecastWindowIncomes now u txns) :=
      calculateVariance_nonneg _
    have hμR : (0 : ℝ) < (forecastAvgIncome now u txns : ℝ) := by
      exact_mod_cast hμ
    have key1 : cv < 0.2 ↔
        calculateVariance (forecastWindowIncomes now u txns) <
          (1 / 5 * forecastAvgIncome now u txns) ^ 2 := by
      rw [hcv, div_lt_iff₀ hμR,
        Real.sqrt_lt' (by positivity :
          (0 : ℝ) < 0.2 * (forecastAvgIncome now u txns : ℝ))]
      rw [show ((0.2 : ℝ) * (forecastAvgIncome now u txns : ℝ)) ^ 2 =
          (((1 / 5 * forecastAvgIncome now u txns) ^ 2 : ℚ) : ℝ) by
        push_cast
        ring_nf]
      exact Rat.cast_lt
    have key2 : (0.5 : ℝ) < cv ↔
        (1 / 2 * forecastAvgIncome now u txns) ^ 2 <
          calculateVariance (forecastWindowIncomes now u txns) := by
      rw [hcv, lt_div_iff₀ hμR,
        Real.lt_sqrt (by positivity :
          (0 : ℝ) ≤ 0.5 * (forecastAvgIncome now u txns : ℝ))]
      rw [show ((0.5 : ℝ) * (forecastAvgIncome now u txns : ℝ)) ^ 2 =
          (((1 / 2 * forecastAvgIncome now u txns) ^ 2 : ℚ) : ℝ) by
        push_cast
        ring_nf]
      exact Rat.cast_lt
    by_cases h1 : calculateVariance (forecastWindowIncomes now u txns) <
        (1 / 5 * forecastAvgIncome now u txns) ^ 2
    · rw [if_pos h1]
      have hc1 : cv < 0.2 := key1.mpr h1
      have hc2 : ¬(0.5 : ℝ) < cv := by linarith
      refine ⟨iff_of_true rfl hc1, iff_of_false (by simp) hc2,
        iff_of_false (by simp) ?_⟩
      rintro ⟨hn1, _⟩
      exact hn1 hc1
    · rw [if_neg h1]
      by_cases h2 : (1 / 2 * forecastAvgIncome now u txns) ^ 2 <
          calculateVariance (forecastWindowIncomes now u txns)
      · rw [if_pos h2]
        have hc2 : (0.5 : ℝ) < cv := key2.mpr h2
        have hc1 : ¬cv < 0.2 := by linarith
        refine ⟨iff_of_false (by simp) hc1, iff_of_true rfl hc2,
          iff_of_false (by simp) ?_⟩
        rintro ⟨_, hn2⟩
        exact hn2 hc2
      · rw [if_neg h2]
        have hc1 : ¬cv < 0.2 := fun hh => h1 (key1.mp hh)
        have hc2 : ¬(0.5 : ℝ) < cv := fun hh => h2 (key2.mp hh)
        exact ⟨iff_of_false (by simp) hc1, iff_of_false (by simp) hc2,
          iff_of_true rfl ⟨hc1, hc2⟩⟩

/-- Witness for C7 at a user with no transactions (mean income 0). -/
theorem claim7_witness :
    (∀ t ∈ ([] : List Txn), 0 ≤ t.amount) ∧
    (∀ cv : ℝ,
      cv = (if forecastAvgIncome 0 0 [] = 0 then 1 else
        Real.sqrt (calculateVariance (forecastWindowIncomes 0 0 [])) /
          (forecastAvgIncome 0 0 [] : ℝ)) →
      (((getCashflowForecast 0 0 []).confidence = .high ↔ cv < 0.2) ∧
        ((getCashflowForecast 0 0 []).confidence = .low ↔
          (0.5 : ℝ) < cv) ∧
        ((getCashflowForecast 0 0 []).confidence = .medium ↔
          ¬(cv < 0.2) ∧ ¬((0.5 : ℝ) < cv)))) :=
  ⟨by simp, claim7_confidence_thresholds 0 0 [] (by simp)⟩

/-- With positive amounts and at least one historical sample, the
historical category average is positive. -/
theorem histAverage_pos {now : ℚ} {u : Nat} {txns : List Txn}
    (catId : Nat) (hpos : ∀ t ∈ txns, 0 < t.amount)
    (hcnt : 1 ≤ histCount now u txns catId) :
    0 < histAverage now u txns catId := by
  unfold histAverage
  apply div_pos
  · unfold histTotal
    apply List.sum_pos
    · intro a ha
      obtain ⟨t, ht, rfl⟩ := List.mem_map.mp ha
      exact hpos t (List.mem_of_mem_filter (List.mem_of_mem_filter ht))
    · intro hnil
      unfold histCount at hcnt
      rw [show ((historicalExpenses now u txns).filter
          (fun t => t.categoryId == catId)) = [] from by
        have := congrArg List.length hnil
        rw [List.length_map] at this
        exact List.length_eq_zero.mp this] at hcnt
      simp at hcnt
  · have : (0 : ℕ) < histCount now u txns catId := hcnt
    exact_mod_cast this

/-- C6 — `detectAnomalies` flags exactly the recent (last-month) expense
transactions whose category has at least 2 historical samples in
`[now-3, now-1)` months and whose amount is at least twice that category's
historical average, reporting `ratio = amount / average`, and the result is
sorted descending by ratio.  Categories with fewer than 2 historical
samples never produce anomalies (the `histCount ≥ 2` conjunct of the
characterization). -/
theorem claim6_anomaly_characterization (now : ℚ) (u : Nat)
    (txns : List Txn) (cats : List Category)
    (hpos : ∀ t ∈ txns, 0 < t.amount) :
    (∀ x : SpendingAnomaly,
      x ∈ detectAnomalies now u txns cats ↔
        ∃ t, t ∈ txns ∧
          (t.userId = u ∧ t.type = .expense ∧ now - 1 ≤ t.date) ∧
          2 ≤ histCount now u txns t.categoryId ∧
          2 * histAverage now u txns t.categoryId ≤ t.amount ∧
          x = ⟨t.id, categoryNameOf cats t.categoryId, t.amount,
            histAverage now u txns t.categoryId,
            t.amount / histAverage now u txns t.categoryId, t.date⟩) ∧
    List.Sorted ratioGE (detectAnomalies now u txns cats) := by
  constructor
  · intro x
    unfold detectAnomalies
    rw [List.Perm.mem_iff (List.perm_insertionSort ratioGE _),
      List.mem_filterMap]
    constructor
    · rintro ⟨t, ht, hf⟩
      have htm : t ∈ txns ∧ (t.userId = u ∧ t.type = .expense ∧
          now - 1 ≤ t.date) := by
        unfold recentExpenses at ht
        rw [List.mem_filter, decide_eq_true_iff] at ht
        exact ht
      by_cases hcnt : 2 ≤ histCount now u txns t.categoryId
      · rw [if_pos hcnt] at hf
        have havg : 0 < histAverage now u txns t.categoryId :=
          histAverage_pos t.categoryId hpos (le_trans (by norm_num) hcnt)
        by_cases hratio : (2 : ℚ) ≤
            t.amount / histAverage now u txns t.categoryId
        · rw [if_pos hratio] at hf
          refine ⟨t, htm.1, htm.2, hcnt, ?_,
            (Option.some_inj.mp hf).symm⟩
          exact (le_div_iff₀ havg).mp hratio
        · rw [if_neg hratio] at hf
          exact absurd hf (by simp)
      · rw [if_neg hcnt] at hf
        exact absurd hf (by simp)
    · rintro ⟨t, htm, hcond, hcnt, hamt, rfl⟩
      refine ⟨t, ?_, ?_⟩
      · unfold recentExpenses
        rw [List.mem_filter, decide_eq_true_iff]
        exact ⟨htm, hcond⟩
      · have havg : 0 < histAverage now u txns t.categoryId :=
          histAverage_pos t.categoryId hpos (le_trans (by norm_num) hcnt)
        rw [if_pos hcnt, if_pos ((le_div_iff₀ havg).mpr hamt)]
  · exact List.sorted_insertionSort ratioGE _

/-- Witness for C6: two historical expenses of 100 give average 100; a
recent expense of 250 has ratio 2.5 and is flagged. -/
theorem claim6_witness :
    (∀ t ∈ [(⟨1, 7, 1, 5, .expense, 100, -5/2, none, none⟩ : Txn),
        ⟨2, 7, 1, 5, .expense, 100, -2, none, none⟩,
        ⟨3, 7, 1, 5, .expense, 250, -1/2, none, none⟩], 0 < t.amount) ∧
    (∀ x : SpendingAnomaly,
      x ∈ detectAnomalies 0 7
          [⟨1, 7, 1, 5, .expense, 100, -5/2, none, none⟩,
           ⟨2, 7, 1, 5, .expense, 100, -2, none, none⟩,
           ⟨3, 7, 1, 5, .expense, 250, -1/2, none, none⟩]
          [⟨5, 7, "Food", .expense, none⟩] ↔
        ∃ t, t ∈ [(⟨1, 7, 1, 5, .expense, 100, -5/2, none, none⟩ : Txn),
            ⟨2, 7, 1, 5, .expense, 100, -2, none, none⟩,
            ⟨3, 7, 1, 5, .expense, 250, -1/2, none, none⟩] ∧
          (t.userId = 7 ∧ t.type = .expense ∧ (0 : ℚ) - 1 ≤ t.date) ∧
          2 ≤ histCount 0 7
            [⟨1, 7, 1, 5, .expense, 100, -5/2, none, none⟩,
             ⟨2, 7, 1, 5, .expense, 100, -2, none, none⟩,
             ⟨3, 7, 1, 5, .expense, 250, -1/2, none, none⟩] t.categoryId ∧
          2 * histAverage 0 7
            [⟨1, 7, 1, 5, .expense, 100, -5/2, none, none⟩,
             ⟨2, 7, 1, 5, .expense, 100, -2, none, none⟩,
             ⟨3, 7, 1, 5, .expense, 250, -1/2, none, none⟩] t.categoryId ≤
            t.amount ∧
          x = ⟨t.id, categoryNameOf [⟨5, 7, "Food", .expense, none⟩]
              t.categoryId, t.amount,
            histAverage 0 7
              [⟨1, 7, 1, 5, .expense, 100, -5/2, none, none⟩,
               ⟨2, 7, 1, 5, .expense, 100, -2, none, none⟩,
               ⟨3, 7, 1, 5, .expense, 250, -1/2, none, none⟩] t.categoryId,
            t.amount / histAverage 0 7
              [⟨1, 7, 1, 5, .expense, 100, -5/2, none, none⟩,
               ⟨2, 7, 1, 5, .expense, 100, -2, none, none⟩,
               ⟨3, 7, 1, 5, .expense, 250, -1/2, none, none⟩] t.categoryId,
            t.date⟩) ∧
    List.Sorted ratioGE (detectAnomalies 0 7
      [⟨1, 7, 1, 5, .expense, 100, -5/2, none, none⟩,
       ⟨2, 7, 1, 5, .expense, 100, -2, none, none⟩,
       ⟨3, 7, 1, 5, .expense, 250, -1/2, none, none⟩]
      [⟨5, 7, "Food", .expense, none⟩]) :=
  ⟨by decide,
    claim6_anomaly_characterization 0 7
      [⟨1, 7, 1, 5, .expense, 100, -5/2, none, none⟩,
       ⟨2, 7, 1, 5, .expense, 100, -2, none, none⟩,
       ⟨3, 7, 1, 5, .expense, 250, -1/2, none, none⟩]
      [⟨5, 7, "Food", .expense, none⟩] (by decide)⟩

/-- C4 (amended) — For a user with N transactions whose six rendered cells
(formatted date, type, category name, account name, amount string, note)
contain no double quote, comma or newline, the CSV export splits on
newlines into exactly N+1 lines; the first is the comma-joined header whose
6 fields are not double-quoted, and each of the N following lines has
exactly 6 comma-separated fields, each double-quoted. -/
theorem claim4_csv_structure (fmt : ℚ → String) (u : Nat) (s : Store)
    (hclean : ∀ t ∈ s.txns.filter (fun t => t.userId == u),
      ∀ cell ∈ csvCells fmt (s.accounts.filter (fun a => a.userId == u))
        (s.categories.filter (fun c => c.userId == u)) t,
      '"' ∉ cell.data ∧ ',' ∉ cell.data ∧ '\n' ∉ cell.data) :
    (textLines (exportToCSV fmt u s)).length =
      (s.txns.filter (fun t => t.userId == u)).length + 1 ∧
    (textLines (exportToCSV fmt u s)).head? =
      some (joinSep "," csvHeaders) ∧
    (lineFields (joinSep "," csvHeaders)).length = 6 ∧
    (∀ f ∈ lineFields (joinSep "," csvHeaders), ¬doubleQuoted f) ∧
    (∀ line ∈ (textLines (exportToCSV fmt u s)).tail,
      (lineFields line).length = 6 ∧ ∀ f ∈ lineFields line, doubleQuoted f)
    := by
  have hlines : textLines (exportToCSV fmt u s) =
      joinSep "," csvHeaders ::
        (s.txns.filter (fun t => t.userId == u)).map (fun t =>
          joinSep "," ((csvCells fmt
            (s.accounts.filter (fun a => a.userId == u))
            (s.categories.filter (fun c => c.userId == u)) t).map
              (fun cell => "\"" ++ cell ++ "\""))) := by
    unfold textLines
    have hout : exportToCSV fmt u s =
        joinSep "\n" (joinSep "," csvHeaders ::
          ((s.txns.filter (fun t => t.userId == u)).map (fun t =>
            csvCells fmt (s.accounts.filter (fun a => a.userId == u))
              (s.categories.filter (fun c => c.userId == u)) t)).map
            (fun row => joinSep ","
              (row.map (fun cell => "\"" ++ cell ++ "\"")))) := rfl
    rw [hout, List.map_map, joinSep_data rfl]
    rw [splitCh_joinData (by simp) ?hnl]
    · exact map_mk_map_data _
    case hnl =>
      intro p hp
      rw [List.mem_map] at hp
      obtain ⟨line, hline, rfl⟩ := hp
      rcases List.mem_cons.mp hline with rfl | hrow
      · decide
      · obtain ⟨t, ht, rfl⟩ := List.mem_map.mp hrow
        exact rowLine_no_newline _ (hclean t ht)
  refine ⟨?_, ?_, by decide, by decide, ?_⟩
  · rw [hlines]
    simp
  · rw [hlines]
    rfl
  · rw [hlines]
    intro line hline
    simp only [List.tail_cons] at hline
    obtain ⟨t, ht, rfl⟩ := List.mem_map.mp hline
    have hfields := rowLine_fields _ (by simp [csvCells]) (hclean t ht)
    constructor
    · rw [hfields, List.length_map]
      rfl
    · intro f hf
      rw [hfields] at hf
      obtain ⟨cell, _, rfl⟩ := List.mem_map.mp hf
      exact ⟨cell.data, quote_data cell⟩

/-- C4 counterexample — with one transaction whose note is `a,b`, the
claimed shape fails: the data line splits into 7 comma-separated fields,
and the header line's fields are not double-quoted. -/
theorem claim4_counterexample :
    ¬ ((textLines (exportToCSV (fun _ => "2026-01-01") 7
          (Store.mk [⟨1, 7, "Wallet", 0⟩] [⟨5, 7, "Food", .expense, none⟩]
            [⟨1, 7, 1, 5, .expense, 5, 0, some "a,b", none⟩] 2 6))).length =
        1 + 1 ∧
      ∀ line ∈ textLines (exportToCSV (fun _ => "2026-01-01") 7
          (Store.mk [⟨1, 7, "Wallet", 0⟩] [⟨5, 7, "Food", .expense, none⟩]
            [⟨1, 7, 1, 5, .expense, 5, 0, some "a,b", none⟩] 2 6)),
        (lineFields line).length = 6 ∧
        ∀ f ∈ lineFields line, doubleQuoted f) := by
  decide

/-- Witness for C4 at a one-transaction store with clean cells. -/
theorem claim4_witness :
    (∀ t ∈ (Store.mk [⟨1, 7, "Wallet", 0⟩] [⟨5, 7, "Food", .expense, none⟩]
        [⟨1, 7, 1, 5, .expense, 5, 0, some "groceries", none⟩]
        2 6).txns.filter (fun t => t.userId == 7),
      ∀ cell ∈ csvCells (fun _ => "2026-01-01")
        ((Store.mk [⟨1, 7, "Wallet", 0⟩] [⟨5, 7, "Food", .expense, none⟩]
          [⟨1, 7, 1, 5, .expense, 5, 0, some "groceries", none⟩]
          2 6).accounts.filter (fun a => a.userId == 7))
        ((Store.mk [⟨1, 7, "Wallet", 0⟩] [⟨5, 7, "Food", .expense, none⟩]
          [⟨1, 7, 1, 5, .expense, 5, 0, some "groceries", none⟩]
          2 6).categories.filter (fun c => c.userId == 7)) t,
      '"' ∉ cell.data ∧ ',' ∉ cell.data ∧ '\n' ∉ cell.data) ∧
    (textLines (exportToCSV (fun _ => "2026-01-01") 7
      (Store.mk [⟨1, 7, "Wallet", 0⟩] [⟨5, 7, "Food", .expense, none⟩]
        [⟨1, 7, 1, 5, .expense, 5, 0, some "groceries", none⟩]
        2 6))).length =
      ((Store.mk [⟨1, 7, "Wallet", 0⟩] [⟨5, 7, "Food", .expense, none⟩]
        [⟨1, 7, 1, 5, .expense, 5, 0, some "groceries", none⟩]
        2 6).txns.filter (fun t => t.userId == 7)).length + 1 :=
  ⟨by decide,
    (claim4_csv_structure (fun _ => "2026-01-01") 7
      (Store.mk [⟨1, 7, "Wallet", 0⟩] [⟨5, 7, "Food", .expense, none⟩]
        [⟨1, 7, 1, 5, .expense, 5, 0, some "groceries", none⟩]
        2 6) (by decide)).1⟩

/-- Witness for C8 at a concrete fresh store. -/
theorem claim8_witness :
    seedCategories 7 (seedCategories 7 (Store.mk [] [] [] 1 1)) =
      seedCategories 7 (Store.mk [] [] [] 1 1) ∧
    (((Store.mk [] [] [] 1 1).categories.filter
        (fun c => c.userId == 7)).length = 0 →
      ((seedCategories 7 (Store.mk [] [] [] 1 1)).categories.filter
          (fun c => c.userId == 7)).length = 23 ∧
      ((seedCategories 7 (Store.mk [] [] [] 1 1)).categories.filter
          (fun c => c.userId == 7 && c.type == .income)).length = 6 ∧
      ((seedCategories 7 (Store.mk [] [] [] 1 1)).categories.filter
          (fun c => c.userId == 7 && c.type == .expense)).length = 11 ∧
      ((seedCategories 7 (Store.mk [] [] [] 1 1)).categories.filter
          (fun c => c.userId == 7 && c.type == .transfer)).length = 6) :=
  claim8_seed_idempotent 7 (Store.mk [] [] [] 1 1)

end CatatanKeuangan
